import Mathlib

/-!
# Verification of the delete-binaries-deleted batch-deletion tool

Shallow embedding of `src/delete_binaries_deleted/main.py` (class
`BinariesDeleter`) over an abstract storage gateway that models
`src/delete_binaries_deleted/database.py` (class `DatabaseManager`).

The gateway is modelled as a record of state-passing operations that may
fail (Python exceptions become `Except String`).  `delete_all_records`,
`get_deletion_statistics` and `dry_run` are translated line by line from
the Python source; the `while True` loop takes explicit fuel.  Result
dictionaries are modelled by a structure whose `Option` fields record
which keys the Python dict actually contains (a `none` field means the
key is absent from the returned dict).  Wall-clock time is modelled by a
`now` observation on the gateway state; durations are rationals.
-/

/-- One progress-callback invocation, with the four keyword arguments the
Python code passes (`batch_number`, `batch_deleted`, `total_deleted`,
`initial_count`). -/
structure Obs where
  batch_number : Nat
  batch_deleted : Nat
  total_deleted : Nat
  initial_count : Nat
deriving Repr, DecidableEq

/-- The storage gateway: models `DatabaseManager`.  `count` models
`count_binaries_deleted_records`, `fetch` models
`get_binaries_deleted_batch` at offset 0 (the only offset the deleter
uses) returning the list of `BinaryId` values, `deleteIds` models
`delete_binaries_deleted_batch`, and `now` models reading the wall
clock (`time.time()`) in the current state.  A raised exception is an
`Except.error` carrying the exception text. -/
structure Gateway (σ : Type) where
  count : σ → Except String (Nat × σ)
  fetch : Nat → σ → Except String (List Nat × σ)
  deleteIds : List Nat → σ → Except String (Nat × σ)
  now : σ → ℚ

/-- The progress callback: receives batch number, batch deleted count,
total deleted so far and initial count; it may itself raise. -/
def Callback : Type := Nat → Nat → Nat → Nat → Except String Unit

/-- The result dictionary returned by `delete_all_records`.  Each
`Option` field is `some` exactly when the Python dict contains the
corresponding key. -/
structure RunResult where
  success : Bool
  error : Option String := none
  initial_count : Option Nat := none
  final_count : Option Nat := none
  total_deleted : Option Nat := none
  batches_processed : Option Nat := none
  duration_seconds : Option ℚ := none
  average_batch_time : Option ℚ := none
deriving Repr, DecidableEq

/-- Outcome of the `while True` loop of `delete_all_records`: normal
break on an empty batch (`done`), an exception escaping to the `except`
clause (`failed`), or fuel exhaustion (`fuelOut`, a modelling artefact).
Each outcome carries the running total, the batch counter, the list of
progress-callback invocations made, and the final gateway state. -/
inductive LoopOut (σ : Type) where
  | done (total batches : Nat) (trace : List Obs) (s : σ)
  | failed (err : String) (total batches : Nat) (trace : List Obs) (s : σ)
  | fuelOut

/-- The body of the `while True` loop in `delete_all_records`
(main.py lines 93-125), with explicit fuel.  `t` is `self.total_deleted`,
`b` is `batches_processed`.  Fetch a batch; break if empty; extract the
ids; delete them; update the counters; invoke the callback if present;
iterate.  A failing gateway call or callback produces `failed` with the
counters accumulated so far, as the Python `except` clause observes
them. -/
def loopAux {σ : Type} (gw : Gateway σ) (cb : Option Callback)
    (batch_size ic : Nat) : Nat → Nat → Nat → σ → LoopOut σ
  | 0, _, _, _ => .fuelOut
  | fuel + 1, t, b, s =>
    match gw.fetch batch_size s with
    | .error e => .failed e t b [] s
    | .ok (batch, s1) =>
      if batch.isEmpty then .done t b [] s1
      else
        match gw.deleteIds batch s1 with
        | .error e => .failed e t b [] s1
        | .ok (d, s2) =>
          let t' := t + d
          let b' := b + 1
          match cb with
          | none =>
            match loopAux gw cb batch_size ic fuel t' b' s2 with
            | .done tf bf tr sf => .done tf bf tr sf
            | .failed e tf bf tr sf => .failed e tf bf tr sf
            | .fuelOut => .fuelOut
          | some f =>
            match f b' d t' ic with
            | .error e => .failed e t' b' [⟨b', d, t', ic⟩] s2
            | .ok _ =>
              match loopAux gw cb batch_size ic fuel t' b' s2 with
              | .done tf bf tr sf => .done tf bf (⟨b', d, t', ic⟩ :: tr) sf
              | .failed e tf bf tr sf => .failed e tf bf (⟨b', d, t', ic⟩ :: tr) sf
              | .fuelOut => .fuelOut

/-- Model of `BinariesDeleter.delete_all_records` (main.py lines 70-154).
Returns `none` only on fuel exhaustion (a modelling artefact); otherwise
`some (result dict, final gateway state, callback-invocation trace)`. -/
def delete_all_records {σ : Type} (gw : Gateway σ) (cb : Option Callback)
    (batch_size fuel : Nat) (s0 : σ) : Option (RunResult × σ × List Obs) :=
  let start := gw.now s0
  match gw.count s0 with
  | .error e =>
    some ({ success := false, error := some e, total_deleted := some 0,
            duration_seconds := some (gw.now s0 - start) }, s0, [])
  | .ok (ic, s1) =>
    if ic = 0 then
      some ({ success := true, initial_count := some 0, total_deleted := some 0,
              batches_processed := some 0, duration_seconds := some 0 }, s1, [])
    else
      match loopAux gw cb batch_size ic fuel 0 0 s1 with
      | .fuelOut => none
      | .failed e t _b tr s2 =>
        some ({ success := false, error := some e, total_deleted := some t,
                duration_seconds := some (gw.now s2 - start) }, s2, tr)
      | .done t b tr s2 =>
        let dur := gw.now s2 - start
        match gw.count s2 with
        | .error e =>
          some ({ success := false, error := some e, total_deleted := some t,
                  duration_seconds := some (gw.now s2 - start) }, s2, tr)
        | .ok (fc, s3) =>
          some ({ success := true, initial_count := some ic, final_count := some fc,
                  total_deleted := some t, batches_processed := some b,
                  duration_seconds := some dur,
                  average_batch_time := some (if 0 < b then dur / (b : ℚ) else 0) },
                s3, tr)

/-- The statistics dictionary of `get_deletion_statistics` / `dry_run`.
`sample_records` is `some` exactly when `dry_run` has added that key. -/
structure Stats where
  total_records : Nat
  batch_size : Nat
  estimated_batches : Nat
  estimated_time_minutes : ℚ
  sample_records : Option (List Nat) := none
deriving Repr, DecidableEq

/-- Model of `BinariesDeleter.get_deletion_statistics` (main.py lines 33-47):
count the records and derive the batch estimate; any exception
propagates. -/
def get_deletion_statistics {σ : Type} (gw : Gateway σ) (batch_size : Nat)
    (s : σ) : Except String (Stats × σ) :=
  match gw.count s with
  | .error e => .error e
  | .ok (n, s1) =>
    .ok ({ total_records := n, batch_size := batch_size,
           estimated_batches := (n + batch_size - 1) / batch_size,
           estimated_time_minutes := ((n + batch_size - 1) / batch_size : Nat) * (1 / 10) },
         s1)

/-- Model of `BinariesDeleter.dry_run` (main.py lines 49-68): take the statistics
snapshot, then try to fetch a sample of `min 10 total_records`
identifiers; a failing sample fetch is swallowed and the sample becomes
the empty list. -/
def dry_run {σ : Type} (gw : Gateway σ) (batch_size : Nat) (s : σ) :
    Except String (Stats × σ) :=
  match get_deletion_statistics gw batch_size s with
  | .error e => .error e
  | .ok (st, s1) =>
    match gw.fetch (min 10 st.total_records) s1 with
    | .error _ => .ok ({ st with sample_records := some [] }, s1)
    | .ok (ids, s2) => .ok ({ st with sample_records := some ids }, s2)

/-- The ideal gateway over an in-memory table of `BinaryId` values, with
no interference and no failures: `count` is the row count, `fetch n` is
the SQL `ORDER BY ASC LIMIT n` (sort ascending, take `n`), and
`deleteIds ids` is `DELETE WHERE BinaryId IN ids` (its row count is the
number of matching rows).  The clock is constant. -/
def idealGw : Gateway (List Nat) where
  count s := .ok (s.length, s)
  fetch n s := .ok ((List.insertionSort (· ≤ ·) s).take n, s)
  deleteIds ids s :=
    .ok ((s.filter (fun x => ids.contains x)).length,
         s.filter (fun x => !ids.contains x))
  now _ := 0

/-- Ordering between consecutive observer invocations: the running total
never decreases and strictly increases when the later batch deleted
something. -/
def obsStep (o1 o2 : Obs) : Prop :=
  o1.total_deleted ≤ o2.total_deleted ∧
    (0 < o2.batch_deleted → o1.total_deleted < o2.total_deleted)

/-- The callback-invocation trace carried by a loop outcome. -/
def traceOf {σ : Type} : LoopOut σ → List Obs
  | .done _ _ tr _ => tr
  | .failed _ _ _ tr _ => tr
  | .fuelOut => []

/-- The batch counter carried by a loop outcome. -/
def batchesOf {σ : Type} : LoopOut σ → Nat
  | .done _ b _ _ => b
  | .failed _ _ b _ _ => b
  | .fuelOut => 0

/-- Trace properties satisfied by any non-fuel-out outcome. -/
def traceOk {σ : Type} (t b : Nat) (out : LoopOut σ) : Prop :=
  batchesOf out = b + (traceOf out).length ∧
    (traceOf out).map Obs.batch_number = List.range' (b + 1) (traceOf out).length ∧
    (∀ o, (traceOf out).head? = some o → o.total_deleted = t + o.batch_deleted) ∧
    List.Chain' obsStep (traceOf out)

/-- Wrap a gateway so that the state also counts the fetch and delete
calls made, leaving the behaviour otherwise unchanged. -/
def instr {σ : Type} (gw : Gateway σ) : Gateway (σ × Nat × Nat) where
  count s :=
    match gw.count s.1 with
    | .error e => .error e
    | .ok (n, s1) => .ok (n, (s1, s.2.1, s.2.2))
  fetch n s :=
    match gw.fetch n s.1 with
    | .error e => .error e
    | .ok (l, s1) => .ok (l, (s1, s.2.1 + 1, s.2.2))
  deleteIds ids s :=
    match gw.deleteIds ids s.1 with
    | .error e => .error e
    | .ok (d, s1) => .ok (d, (s1, s.2.1, s.2.2 + 1))
  now s := gw.now s.1

/-- A progress callback that raises exactly on batch number `k`. -/
def failAt (k : Nat) (e : String) : Callback := fun bn _ _ _ =>
  if bn = k then .error e else .ok ()

/-- A progress callback that never raises. -/
def okCb : Callback := fun _ _ _ _ => .ok ()

/-- A gateway over an in-memory table whose delete operation raises on
its third call (call counter in the second state component); used for
the mid-run-failure scenario of the spec. -/
def gwFail3 : Gateway (List Nat × Nat) where
  count s := .ok (s.1.length, s)
  fetch n s := .ok ((List.insertionSort (· ≤ ·) s.1).take n, s)
  deleteIds ids s :=
    if s.2 = 2 then .error "db error"
    else .ok ((s.1.filter (fun x => ids.contains x)).length,
              (s.1.filter (fun x => !ids.contains x), s.2 + 1))
  now _ := 0

/-- A gateway whose count succeeds but whose fetch always raises. -/
def gwFetchFails : Gateway (List Nat) where
  count s := .ok (s.length, s)
  fetch _ _ := .error "net down"
  deleteIds _ _ := .error "net down"
  now _ := 0

/-- A gateway whose count always raises. -/
def gwCountFails : Gateway (List Nat) where
  count _ := .error "db down"
  fetch _ _ := .error "db down"
  deleteIds _ _ := .error "db down"
  now _ := 0

/-- The failure dict of the B = 10, N = 25 run whose 3rd delete raises,
with the duration written exactly as the model computes it. -/
def sampleFailureRec : RunResult :=
  { success := false, error := some "db error", total_deleted := some 20,
    duration_seconds := some ((0 : ℚ) - 0) }

/-- The success dict of the ideal N = 3, B = 2 run, with duration and
average written exactly as the model computes them. -/
def sampleSuccessRec : RunResult :=
  { success := true, initial_count := some 3, final_count := some 0,
    total_deleted := some 3, batches_processed := some 2,
    duration_seconds := some ((0 : ℚ) - 0),
    average_batch_time := some (if 0 < 2 then ((0 : ℚ) - 0) / (2 : ℚ) else 0) }

/-- The statistics snapshot for a three-row table at batch size 400,
with the time estimate written exactly as the model computes it. -/
def sampleStats : Stats :=
  { total_records := 3, batch_size := 400, estimated_batches := 1,
    estimated_time_minutes := (((3 + 400 - 1) / 400 : Nat) : ℚ) * (1 / 10) }

lemma filter_mem_append (l1 l2 : List Nat) (hd : l1.Disjoint l2) :
    (l1 ++ l2).filter (fun x => decide (x ∈ l1)) = l1 := by
  rw [List.filter_append]
  have h1 : l1.filter (fun x => decide (x ∈ l1)) = l1 :=
    List.filter_eq_self.mpr fun a ha => decide_eq_true ha
  have h2 : l2.filter (fun x => decide (x ∈ l1)) = [] :=
    List.filter_eq_nil_iff.mpr fun a ha hc => hd (of_decide_eq_true hc) ha
  rw [h1, h2, List.append_nil]

lemma filter_not_mem_append (l1 l2 : List Nat) (hd : l1.Disjoint l2) :
    (l1 ++ l2).filter (fun x => !decide (x ∈ l1)) = l2 := by
  rw [List.filter_append]
  have h1 : l1.filter (fun x => !decide (x ∈ l1)) = [] := by
    apply List.filter_eq_nil_iff.mpr
    intro a ha hc
    rw [decide_eq_true ha] at hc
    exact Bool.noConfusion hc
  have h2 : l2.filter (fun x => !decide (x ∈ l1)) = l2 := by
    apply List.filter_eq_self.mpr
    intro a ha
    have : a ∉ l1 := fun hm => hd hm ha
    rw [decide_eq_false this]
    rfl
  rw [h1, h2, List.nil_append]

/-- One iteration of the ideal gateway on a sorted duplicate-free table:
the fetch returns the first `B` rows and the delete removes exactly
them. -/
lemma ideal_step (s : List Nat) (hs : s.Sorted (· < ·)) (B : Nat) :
    idealGw.fetch B s = .ok (s.take B, s) ∧
    idealGw.deleteIds (s.take B) s = .ok ((s.take B).length, s.drop B) := by
  have hsort : List.insertionSort (· ≤ ·) s = s := hs.le_of_lt.insertionSort_eq
  have hnd : s.Nodup := hs.nodup
  have hdisj : (s.take B).Disjoint (s.drop B) := List.disjoint_take_drop hnd le_rfl
  constructor
  · show Except.ok ((List.insertionSort (· ≤ ·) s).take B, s) = _
    rw [hsort]
  · have hc := filter_mem_append (s.take B) (s.drop B) hdisj
    have hnc := filter_not_mem_append (s.take B) (s.drop B) hdisj
    rw [List.take_append_drop] at hc hnc
    show Except.ok ((s.filter fun x => (s.take B).contains x).length,
                    s.filter fun x => !(s.take B).contains x) = _
    simp only [List.elem_eq_mem]
    rw [hc, hnc]

lemma take_isEmpty_false (s : List Nat) (B : Nat) (hB : 1 ≤ B) (hs : s ≠ []) :
    (s.take B).isEmpty = false := by
  obtain ⟨a, l, rfl⟩ := List.exists_cons_of_ne_nil hs
  obtain ⟨b, rfl⟩ := Nat.exists_eq_add_of_le hB
  rw [Nat.add_comm, List.take_succ_cons]
  rfl

lemma ceil_step (len B : Nat) (hB : 1 ≤ B) (hlen : 1 ≤ len) :
    (len + B - 1) / B = (len - B + B - 1) / B + 1 := by
  have hB0 : 0 < B := hB
  rcases le_or_lt B len with h | h
  · rw [show len + B - 1 = (len - B + B - 1) + B by omega, Nat.add_div_right _ hB0]
  · rw [show len - B = 0 by omega]
    rw [show len + B - 1 = (len - 1) + B by omega, Nat.add_div_right _ hB0]
    rw [Nat.div_eq_of_lt (by omega), Nat.div_eq_of_lt (by omega)]

lemma loop_ideal_none (B ic : Nat) (hB : 1 ≤ B) :
    ∀ fuel s t b, s.Sorted (· < ·) → s.length < fuel →
      loopAux idealGw none B ic fuel t b s =
        .done (t + s.length) (b + (s.length + B - 1) / B) [] [] := by
  intro fuel
  induction fuel with
  | zero => intro s t b _ hlt; omega
  | succ fuel ih =>
    intro s t b hs hlt
    rcases eq_or_ne s [] with rfl | hne
    · simp [loopAux, idealGw, Nat.div_eq_of_lt (show B - 1 < B by omega)]
    · have hstep := ideal_step s hs B
      have hemp := take_isEmpty_false s B hB hne
      have hlen : 1 ≤ s.length := List.length_pos.mpr hne
      have hdrop_sorted : (s.drop B).Sorted (· < ·) :=
        hs.sublist (List.drop_sublist B s)
      have hdrop_len : (s.drop B).length < fuel := by
        rw [List.length_drop]; omega
      have ihx := ih (s.drop B) (t + (s.take B).length) (b + 1) hdrop_sorted hdrop_len
      simp only [loopAux, hstep.1, hstep.2, hemp, ihx, Bool.false_eq_true, if_false]
      rw [List.length_take, List.length_drop]
      have h1 : t + B ⊓ s.length + (s.length - B) = t + s.length := by omega
      have h2 : b + 1 + (s.length - B + B - 1) / B = b + (s.length + B - 1) / B := by
        rw [ceil_step s.length B hB hlen]; omega
      rw [h1, h2]

lemma run_ideal_eq (s : List Nat) (B fuel : Nat)
    (hs : s.Sorted (· < ·)) (hB : 1 ≤ B) (hfuel : s.length < fuel)
    (hne : s ≠ []) :
    delete_all_records idealGw none B fuel s =
      some ({ success := true, initial_count := some s.length, final_count := some 0,
              total_deleted := some s.length,
              batches_processed := some ((s.length + B - 1) / B),
              duration_seconds := some 0,
              average_batch_time := some 0 }, [], []) := by
  have hloop := loop_ideal_none B s.length hB fuel s 0 0 hs hfuel
  have hlen0 : ¬ s.length = 0 := fun h => hne (List.length_eq_zero.mp h)
  unfold delete_all_records
  simp only [idealGw] at hloop ⊢
  rw [if_neg hlen0, hloop]
  simp [sub_self, zero_div]

section LoopEquations

variable {σ : Type} (gw : Gateway σ) (cb : Option Callback) (B ic fuel t b : Nat) (s : σ)

lemma loopAux_fetch_err (e : String) (hf : gw.fetch B s = .error e) :
    loopAux gw cb B ic (fuel + 1) t b s = .failed e t b [] s := by
  simp [loopAux, hf]

lemma loopAux_fetch_empty (batch : List Nat) (s1 : σ)
    (hf : gw.fetch B s = .ok (batch, s1)) (hb : batch.isEmpty = true) :
    loopAux gw cb B ic (fuel + 1) t b s = .done t b [] s1 := by
  simp [loopAux, hf, hb]

lemma loopAux_del_err (batch : List Nat) (s1 : σ) (e : String)
    (hf : gw.fetch B s = .ok (batch, s1)) (hb : batch.isEmpty = false)
    (hd : gw.deleteIds batch s1 = .error e) :
    loopAux gw cb B ic (fuel + 1) t b s = .failed e t b [] s1 := by
  simp [loopAux, hf, hb, hd]

lemma loopAux_none_step (batch : List Nat) (s1 : σ) (d : Nat) (s2 : σ)
    (hf : gw.fetch B s = .ok (batch, s1)) (hb : batch.isEmpty = false)
    (hd : gw.deleteIds batch s1 = .ok (d, s2)) :
    loopAux gw none B ic (fuel + 1) t b s =
      match loopAux gw none B ic fuel (t + d) (b + 1) s2 with
      | .done tf bf tr sf => .done tf bf tr sf
      | .failed e tf bf tr sf => .failed e tf bf tr sf
      | .fuelOut => .fuelOut := by
  simp [loopAux, hf, hb, hd]

lemma loopAux_cb_err (f : Callback) (batch : List Nat) (s1 : σ) (d : Nat) (s2 : σ)
    (e : String)
    (hf : gw.fetch B s = .ok (batch, s1)) (hb : batch.isEmpty = false)
    (hd : gw.deleteIds batch s1 = .ok (d, s2))
    (hcb : f (b + 1) d (t + d) ic = .error e) :
    loopAux gw (some f) B ic (fuel + 1) t b s =
      .failed e (t + d) (b + 1) [⟨b + 1, d, t + d, ic⟩] s2 := by
  simp [loopAux, hf, hb, hd, hcb]

lemma loopAux_cb_ok_step (f : Callback) (batch : List Nat) (s1 : σ) (d : Nat)
    (s2 : σ) (u : Unit)
    (hf : gw.fetch B s = .ok (batch, s1)) (hb : batch.isEmpty = false)
    (hd : gw.deleteIds batch s1 = .ok (d, s2))
    (hcb : f (b + 1) d (t + d) ic = .ok u) :
    loopAux gw (some f) B ic (fuel + 1) t b s =
      match loopAux gw (some f) B ic fuel (t + d) (b + 1) s2 with
      | .done tf bf tr sf => .done tf bf (⟨b + 1, d, t + d, ic⟩ :: tr) sf
      | .failed e tf bf tr sf => .failed e tf bf (⟨b + 1, d, t + d, ic⟩ :: tr) sf
      | .fuelOut => .fuelOut := by
  simp [loopAux, hf, hb, hd, hcb]

end LoopEquations

lemma traceOk_empty {σ : Type} (t b : Nat) (out : LoopOut σ)
    (h : traceOf out = []) (hb : batchesOf out = b) : traceOk t b out := by
  refine ⟨by rw [h, hb]; rfl, by rw [h]; rfl, ?_, by rw [h]; exact List.chain'_nil⟩
  intro o ho
  rw [h] at ho
  cases ho

lemma loop_trace_inv {σ : Type} (gw : Gateway σ) (f : Callback) (B ic : Nat) :
    ∀ fuel t b (s : σ),
      loopAux gw (some f) B ic fuel t b s ≠ .fuelOut →
      traceOk t b (loopAux gw (some f) B ic fuel t b s) := by
  intro fuel
  induction fuel with
  | zero => intro t b s hne; exact absurd rfl hne
  | succ fuel ih =>
    intro t b s hne
    cases hf : gw.fetch B s with
    | error e =>
      rw [loopAux_fetch_err gw (some f) B ic fuel t b s e hf]
      exact traceOk_empty t b _ rfl rfl
    | ok p =>
      obtain ⟨batch, s1⟩ := p
      by_cases hb : batch.isEmpty
      · rw [loopAux_fetch_empty gw (some f) B ic fuel t b s batch s1 hf hb]
        exact traceOk_empty t b _ rfl rfl
      · rw [Bool.not_eq_true] at hb
        cases hd : gw.deleteIds batch s1 with
        | error e =>
          rw [loopAux_del_err gw (some f) B ic fuel t b s batch s1 e hf hb hd]
          exact traceOk_empty t b _ rfl rfl
        | ok q =>
          obtain ⟨d, s2⟩ := q
          cases hcb : f (b + 1) d (t + d) ic with
          | error e =>
            rw [loopAux_cb_err gw B ic fuel t b s f batch s1 d s2 e hf hb hd hcb]
            refine ⟨rfl, rfl, ?_, List.chain'_singleton _⟩
            intro o ho
            cases ho
            rfl
          | ok u =>
            rw [loopAux_cb_ok_step gw B ic fuel t b s f batch s1 d s2 u hf hb hd hcb]
            rw [loopAux_cb_ok_step gw B ic fuel t b s f batch s1 d s2 u hf hb hd hcb] at hne
            cases hrec : loopAux gw (some f) B ic fuel (t + d) (b + 1) s2 with
            | fuelOut => rw [hrec] at hne; exact absurd rfl hne
            | done tf bf tr sf =>
              have hx := ih (t + d) (b + 1) s2 (by rw [hrec]; intro hc; cases hc)
              rw [hrec] at hx
              obtain ⟨hx1, hx2, hx3, hx4⟩ := hx
              simp only [traceOf, batchesOf] at hx1 hx2 hx3 hx4
              refine ⟨?_, ?_, ?_, ?_⟩ <;> simp only [traceOf, batchesOf]
              · rw [List.length_cons]; omega
              · rw [List.map_cons, hx2, List.length_cons]; rfl
              · intro o ho; cases ho; rfl
              · rw [List.chain'_cons']
                refine ⟨?_, hx4⟩
                intro y hy
                have hy2 := hx3 y hy
                exact ⟨show t + d ≤ y.total_deleted by omega,
                       fun hpos => show t + d < y.total_deleted by omega⟩
            | failed e tf bf tr sf =>
              have hx := ih (t + d) (b + 1) s2 (by rw [hrec]; intro hc; cases hc)
              rw [hrec] at hx
              obtain ⟨hx1, hx2, hx3, hx4⟩ := hx
              simp only [traceOf, batchesOf] at hx1 hx2 hx3 hx4
              refine ⟨?_, ?_, ?_, ?_⟩ <;> simp only [traceOf, batchesOf]
              · rw [List.length_cons]; omega
              · rw [List.map_cons, hx2, List.length_cons]; rfl
              · intro o ho; cases ho; rfl
              · rw [List.chain'_cons']
                refine ⟨?_, hx4⟩
                intro y hy
                have hy2 := hx3 y hy
                exact ⟨show t + d ≤ y.total_deleted by omega,
                       fun hpos => show t + d < y.total_deleted by omega⟩

section RunEquations

variable {σ : Type} (gw : Gateway σ) (cb : Option Callback) (B fuel : Nat) (s0 : σ)

lemma run_count_err (e : String) (h : gw.count s0 = .error e) :
    delete_all_records gw cb B fuel s0 =
      some ({ success := false, error := some e, total_deleted := some 0,
              duration_seconds := some 0 }, s0, []) := by
  simp [delete_all_records, h, sub_self]

lemma run_count_zero (s1 : σ) (h : gw.count s0 = .ok (0, s1)) :
    delete_all_records gw cb B fuel s0 =
      some ({ success := true, initial_count := some 0, total_deleted := some 0,
              batches_processed := some 0, duration_seconds := some 0 }, s1, []) := by
  simp [delete_all_records, h]

lemma run_loop_failed (ic : Nat) (s1 : σ) (hic : ic ≠ 0)
    (h : gw.count s0 = .ok (ic, s1))
    (e : String) (t b : Nat) (tr : List Obs) (s2 : σ)
    (hl : loopAux gw cb B ic fuel 0 0 s1 = .failed e t b tr s2) :
    delete_all_records gw cb B fuel s0 =
      some ({ success := false, error := some e, total_deleted := some t,
              duration_seconds := some (gw.now s2 - gw.now s0) }, s2, tr) := by
  simp [delete_all_records, h, hic, hl]

lemma run_loop_fuelOut (ic : Nat) (s1 : σ) (hic : ic ≠ 0)
    (h : gw.count s0 = .ok (ic, s1))
    (hl : loopAux gw cb B ic fuel 0 0 s1 = .fuelOut) :
    delete_all_records gw cb B fuel s0 = none := by
  simp [delete_all_records, h, hic, hl]

lemma run_final_count_err (ic : Nat) (s1 : σ) (hic : ic ≠ 0)
    (h : gw.count s0 = .ok (ic, s1))
    (t b : Nat) (tr : List Obs) (s2 : σ)
    (hl : loopAux gw cb B ic fuel 0 0 s1 = .done t b tr s2)
    (e : String) (h2 : gw.count s2 = .error e) :
    delete_all_records gw cb B fuel s0 =
      some ({ success := false, error := some e, total_deleted := some t,
              duration_seconds := some (gw.now s2 - gw.now s0) }, s2, tr) := by
  simp [delete_all_records, h, hic, hl, h2]

lemma run_done_ok (ic : Nat) (s1 : σ) (hic : ic ≠ 0)
    (h : gw.count s0 = .ok (ic, s1))
    (t b : Nat) (tr : List Obs) (s2 : σ)
    (hl : loopAux gw cb B ic fuel 0 0 s1 = .done t b tr s2)
    (fc : Nat) (s3 : σ) (h2 : gw.count s2 = .ok (fc, s3)) :
    delete_all_records gw cb B fuel s0 =
      some ({ success := true, initial_count := some ic, final_count := some fc,
              total_deleted := some t, batches_processed := some b,
              duration_seconds := some (gw.now s2 - gw.now s0),
              average_batch_time :=
                some (if 0 < b then (gw.now s2 - gw.now s0) / (b : ℚ) else 0) },
            s3, tr) := by
  simp [delete_all_records, h, hic, hl, h2]

end RunEquations


lemma loop_ideal_failAt (B ic k : Nat) (e : String) (hB : 1 ≤ B) :
    ∀ fuel s t b, s.Sorted (· < ·) → s.length < fuel → b < k →
      k - b ≤ (s.length + B - 1) / B →
      ∃ tr, loopAux idealGw (some (failAt k e)) B ic fuel t b s =
        .failed e (t + min ((k - b) * B) s.length) k tr (s.drop ((k - b) * B)) := by
  intro fuel
  induction fuel with
  | zero => intro s t b _ hlt; omega
  | succ fuel ih =>
    intro s t b hs hlt hbk hkc
    rcases eq_or_ne s [] with rfl | hne
    · rw [List.length_nil, Nat.div_eq_of_lt (show 0 + B - 1 < B by omega)] at hkc
      omega
    · have hstep := ideal_step s hs B
      have hemp := take_isEmpty_false s B hB hne
      have hlen : 1 ≤ s.length := List.length_pos.mpr hne
      have htk : (s.take B).length = min B s.length := List.length_take B s
      by_cases hk : b + 1 = k
      · have hcb : failAt k e (b + 1) (s.take B).length (t + (s.take B).length) ic =
            .error e := by
          simp [failAt, hk]
        rw [loopAux_cb_err idealGw B ic fuel t b s (failAt k e) (s.take B) s
              (s.take B).length (s.drop B) e hstep.1 hemp hstep.2 hcb]
        refine ⟨[⟨b + 1, (s.take B).length, t + (s.take B).length, ic⟩], ?_⟩
        rw [show k - b = 1 by omega, Nat.one_mul, hk, htk, Nat.min_comm]
      · have hcb : failAt k e (b + 1) (s.take B).length (t + (s.take B).length) ic =
            .ok () := by
          simp [failAt, hk]
        have hdrop_sorted : (s.drop B).Sorted (· < ·) :=
          hs.sublist (List.drop_sublist B s)
        have hdrop_len : (s.drop B).length < fuel := by
          rw [List.length_drop]; omega
        have hkc2 : k - (b + 1) ≤ ((s.drop B).length + B - 1) / B := by
          rw [List.length_drop]
          rw [ceil_step s.length B hB hlen] at hkc
          omega
        obtain ⟨tr, hrec⟩ := ih (s.drop B) (t + (s.take B).length) (b + 1)
          hdrop_sorted hdrop_len (by omega) hkc2
        rw [loopAux_cb_ok_step idealGw B ic fuel t b s (failAt k e) (s.take B) s
              (s.take B).length (s.drop B) () hstep.1 hemp hstep.2 hcb, hrec]
        have hlenB : 1 ≤ s.length - B := by
          by_contra hc
          rw [List.length_drop, show s.length - B = 0 by omega,
              Nat.div_eq_of_lt (show 0 + B - 1 < B by omega)] at hkc2
          omega
        refine ⟨⟨b + 1, (s.take B).length, t + (s.take B).length, ic⟩ :: tr, ?_⟩
        rw [List.length_drop, List.drop_drop, htk]
        have hx : (k - b) * B = (k - (b + 1)) * B + B := by
          rw [show k - b = (k - (b + 1)) + 1 by omega, Nat.add_mul, Nat.one_mul]
        rw [hx]
        have h1 : t + min B s.length + min ((k - (b + 1)) * B) (s.length - B) =
            t + min ((k - (b + 1)) * B + B) s.length := by
          have hBlen : B < s.length := by omega
          omega
        have h2 : (k - (b + 1)) * B + B = B + (k - (b + 1)) * B := Nat.add_comm _ _
        rw [h1, ← h2]

/-- C6: with an observer supplied, the observer is invoked once per
completed batch, batch numbers count 1,2,3,..., and the running totals
passed to it are monotone. -/
theorem claim_observer_protocol {σ : Type} (gw : Gateway σ) (f : Callback)
    (B fuel : Nat) (s0 : σ) (r : RunResult) (s' : σ) (tr : List Obs)
    (h : delete_all_records gw (some f) B fuel s0 = some (r, s', tr)) :
    (r.success = true → r.batches_processed = some tr.length) ∧
    tr.map Obs.batch_number = List.range' 1 tr.length ∧
    List.Chain' obsStep tr := by
  cases hc : gw.count s0 with
  | error e =>
    rw [run_count_err gw (some f) B fuel s0 e hc] at h
    simp only [Option.some.injEq, Prod.mk.injEq] at h
    obtain ⟨rfl, rfl, rfl⟩ := h
    exact ⟨fun hx => Bool.noConfusion hx, rfl, List.chain'_nil⟩
  | ok p =>
    obtain ⟨ic, s1⟩ := p
    by_cases hic : ic = 0
    · subst hic
      rw [run_count_zero gw (some f) B fuel s0 s1 hc] at h
      simp only [Option.some.injEq, Prod.mk.injEq] at h
      obtain ⟨rfl, rfl, rfl⟩ := h
      exact ⟨fun _ => rfl, rfl, List.chain'_nil⟩
    · cases hl : loopAux gw (some f) B ic fuel 0 0 s1 with
      | fuelOut =>
        rw [run_loop_fuelOut gw (some f) B fuel s0 ic s1 hic hc hl] at h
        cases h
      | failed e t b tr' s2 =>
        have hinv := loop_trace_inv gw f B ic fuel 0 0 s1 (by rw [hl]; intro hx; cases hx)
        rw [hl] at hinv
        obtain ⟨hx1, hx2, hx3, hx4⟩ := hinv
        simp only [traceOf, batchesOf] at hx1 hx2 hx3 hx4
        rw [run_loop_failed gw (some f) B fuel s0 ic s1 hic hc e t b tr' s2 hl] at h
        simp only [Option.some.injEq, Prod.mk.injEq] at h
        obtain ⟨rfl, rfl, rfl⟩ := h
        exact ⟨fun hx => Bool.noConfusion hx, hx2, hx4⟩
      | done t b tr' s2 =>
        have hinv := loop_trace_inv gw f B ic fuel 0 0 s1 (by rw [hl]; intro hx; cases hx)
        rw [hl] at hinv
        obtain ⟨hx1, hx2, hx3, hx4⟩ := hinv
        simp only [traceOf, batchesOf] at hx1 hx2 hx3 hx4
        cases h2 : gw.count s2 with
        | error e =>
          rw [run_final_count_err gw (some f) B fuel s0 ic s1 hic hc t b tr' s2 hl e h2] at h
          simp only [Option.some.injEq, Prod.mk.injEq] at h
          obtain ⟨rfl, rfl, rfl⟩ := h
          exact ⟨fun hx => Bool.noConfusion hx, hx2, hx4⟩
        | ok q =>
          obtain ⟨fc, s3⟩ := q
          rw [run_done_ok gw (some f) B fuel s0 ic s1 hic hc t b tr' s2 hl fc s3 h2] at h
          simp only [Option.some.injEq, Prod.mk.injEq] at h
          obtain ⟨rfl, rfl, rfl⟩ := h
          refine ⟨fun _ => ?_, hx2, hx4⟩
          show some b = some tr'.length
          rw [hx1, Nat.zero_add]

/-- C1: over the ideal non-interfering gateway (each fetch returns the
smallest remaining identifiers, each delete removes exactly the
submitted ones), a run with batch size B ≥ 1 over a table of N rows
succeeds, leaves the table empty, reports totalDeleted = N,
finalCount = 0, and batchesProcessed = ceil(N / B) when N > 0, and
batchesProcessed = 0 when N = 0. -/
theorem claim_run_deletes_all (s : List Nat) (B fuel : Nat)
    (hs : s.Sorted (· < ·)) (hB : 1 ≤ B) (hfuel : s.length < fuel) :
    ∃ r tr, delete_all_records idealGw none B fuel s = some (r, [], tr) ∧
      r.success = true ∧ r.total_deleted = some s.length ∧
      (0 < s.length → r.final_count = some 0 ∧
        r.batches_processed = some ((s.length + B - 1) / B)) ∧
      (s.length = 0 → r.batches_processed = some 0) := by
  rcases eq_or_ne s [] with rfl | hne
  · refine ⟨_, [], run_count_zero idealGw none B fuel [] [] rfl, rfl, rfl, ?_,
      fun _ => rfl⟩
    intro h
    exact absurd h (lt_irrefl 0)
  · have hlen0 : ¬ s.length = 0 := fun h => hne (List.length_eq_zero.mp h)
    exact ⟨_, [], run_ideal_eq s B fuel hs hB hfuel hne, rfl, rfl,
      fun _ => ⟨rfl, rfl⟩, fun h => absurd h hlen0⟩

/-- Witness for C1 at N = 3, B = 2, ceil(3/2) = 2. -/
theorem claim_run_deletes_all_w :
    ∃ r tr, delete_all_records idealGw none 2 4 [1, 2, 3] = some (r, [], tr) ∧
      r.success = true ∧ r.total_deleted = some 3 ∧
      (0 < 3 → r.final_count = some 0 ∧ r.batches_processed = some 2) ∧
      (3 = 0 → r.batches_processed = some 0) :=
  claim_run_deletes_all [1, 2, 3] 2 4 (by decide) (by decide) (by decide)

/-- C5: with B ≥ 1 and fuel exceeding the table size, the loop
terminates (the run returns a result rather than running out of fuel)
and the final table state is empty: the run ended because a fetch
returned an empty page. -/
theorem claim_loop_terminates (s : List Nat) (B fuel : Nat)
    (hs : s.Sorted (· < ·)) (hB : 1 ≤ B) (hfuel : s.length < fuel) :
    ∃ p, delete_all_records idealGw none B fuel s = some p ∧ p.2.1 = [] := by
  rcases eq_or_ne s [] with rfl | hne
  · exact ⟨_, run_count_zero idealGw none B fuel [] [] rfl, rfl⟩
  · exact ⟨_, run_ideal_eq s B fuel hs hB hfuel hne, rfl⟩

/-- Witness for C5 at N = 3, B = 5. -/
theorem claim_loop_terminates_w :
    ∃ p, delete_all_records idealGw none 5 4 [4, 7, 9] = some p ∧ p.2.1 = [] :=
  claim_loop_terminates [4, 7, 9] 5 4 (by decide) (by decide) (by decide)

/-- C4: when the initial count is zero, Run returns immediately with
success = true and all counters zero, and makes no fetch or delete
call: on the call-counting instrumented gateway the fetch and delete
counters come back unchanged. -/
theorem claim_zero_rows_no_calls {σ : Type} (gw : Gateway σ) (s0 s1 : σ)
    (f d : Nat) (cb : Option Callback) (B fuel : Nat)
    (h : gw.count s0 = .ok (0, s1)) :
    delete_all_records (instr gw) cb B fuel (s0, f, d) =
      some ({ success := true, initial_count := some 0, total_deleted := some 0,
              batches_processed := some 0, duration_seconds := some 0 },
            (s1, f, d), []) :=
  run_count_zero (instr gw) cb B fuel (s0, f, d) (s1, f, d) (by simp [instr, h])

/-- Witness for C4 on the empty ideal table. -/
theorem claim_zero_rows_no_calls_w :
    delete_all_records (instr idealGw) none 400 5 (([] : List Nat), 0, 0) =
      some ({ success := true, initial_count := some 0, total_deleted := some 0,
              batches_processed := some 0, duration_seconds := some 0 },
            (([] : List Nat), 0, 0), []) :=
  claim_zero_rows_no_calls idealGw [] [] 0 0 none 400 5 rfl

/-- C8: batch size 0 is never rejected: on a non-empty table the first
fetch returns an empty page, so Run reports success = true with
total_deleted = 0, batches_processed = 0 and final_count = N. -/
theorem claim_batch_size_zero_vacuous_success (s : List Nat) (fuel : Nat)
    (hne : s ≠ []) (hf : 0 < fuel) :
    delete_all_records idealGw none 0 fuel s =
      some ({ success := true, initial_count := some s.length,
              final_count := some s.length, total_deleted := some 0,
              batches_processed := some 0, duration_seconds := some 0,
              average_batch_time := some 0 }, s, []) := by
  obtain ⟨fuel1, rfl⟩ : ∃ k, fuel = k + 1 := ⟨fuel - 1, by omega⟩
  have hlen0 : s.length ≠ 0 := fun h => hne (List.length_eq_zero.mp h)
  have hfetch : idealGw.fetch 0 s = .ok ([], s) := by simp [idealGw]
  have hloop := loopAux_fetch_empty idealGw none 0 s.length fuel1 0 0 s [] s hfetch rfl
  have hrun := run_done_ok idealGw none 0 (fuel1 + 1) s s.length s hlen0 rfl 0 0 [] s
    hloop s.length s rfl
  simpa [sub_self] using hrun

/-- Witness for C8 on a one-row table. -/
theorem claim_batch_size_zero_vacuous_success_w :
    delete_all_records idealGw none 0 1 [7] =
      some ({ success := true, initial_count := some 1, final_count := some 1,
              total_deleted := some 0, batches_processed := some 0,
              duration_seconds := some 0, average_batch_time := some 0 },
            [7], []) :=
  claim_batch_size_zero_vacuous_success [7] 1 (by decide) (by decide)

/-- C2 counterexample: with B = 10 over N = 25 and the delete of the 3rd
batch raising, the returned failure dict has success = false and
total_deleted = 20, but contains no batches_processed key at all, so it
does not carry batchesProcessed == 2 as the claim requires. -/
theorem claim_failure_record_cex :
    (delete_all_records gwFail3 none 10 10 (List.range' 1 25, 0)).map
        (fun p => (p.1.success, p.1.error, p.1.total_deleted,
                   p.1.batches_processed)) =
      some (false, some "db error", some 20, none) := by
  rfl

/-- C2 (amended): on any failure the run stops and returns a failure
dict carrying the error description, the partial total_deleted and the
duration; the failure dict omits batches_processed (as well as
initial_count, final_count and average_batch_time). -/
theorem claim_failure_record_fields {σ : Type} (gw : Gateway σ)
    (cb : Option Callback) (B fuel : Nat) (s0 : σ)
    (p : RunResult × σ × List Obs)
    (h : delete_all_records gw cb B fuel s0 = some p)
    (hfail : p.1.success = false) :
    p.1.error.isSome = true ∧ p.1.total_deleted.isSome = true ∧
    p.1.duration_seconds.isSome = true ∧ p.1.batches_processed = none ∧
    p.1.initial_count = none ∧ p.1.final_count = none ∧
    p.1.average_batch_time = none := by
  cases hc : gw.count s0 with
  | error e =>
    rw [run_count_err gw cb B fuel s0 e hc] at h
    injection h with h'
    subst h'
    exact ⟨rfl, rfl, rfl, rfl, rfl, rfl, rfl⟩
  | ok q =>
    obtain ⟨ic, s1⟩ := q
    by_cases hic : ic = 0
    · subst hic
      rw [run_count_zero gw cb B fuel s0 s1 hc] at h
      injection h with h'
      subst h'
      exact Bool.noConfusion hfail
    · cases hl : loopAux gw cb B ic fuel 0 0 s1 with
      | fuelOut =>
        rw [run_loop_fuelOut gw cb B fuel s0 ic s1 hic hc hl] at h
        exact Option.noConfusion h
      | failed e t b tr s2 =>
        rw [run_loop_failed gw cb B fuel s0 ic s1 hic hc e t b tr s2 hl] at h
        injection h with h'
        subst h'
        exact ⟨rfl, rfl, rfl, rfl, rfl, rfl, rfl⟩
      | done t b tr s2 =>
        cases h2 : gw.count s2 with
        | error e =>
          rw [run_final_count_err gw cb B fuel s0 ic s1 hic hc t b tr s2 hl e h2] at h
          injection h with h'
          subst h'
          exact ⟨rfl, rfl, rfl, rfl, rfl, rfl, rfl⟩
        | ok q2 =>
          obtain ⟨fc, s3⟩ := q2
          rw [run_done_ok gw cb B fuel s0 ic s1 hic hc t b tr s2 hl fc s3 h2] at h
          injection h with h'
          subst h'
          exact Bool.noConfusion hfail

/-- Witness for the amended C2 at the B = 10, N = 25 scenario with the
3rd delete raising. -/
theorem claim_failure_record_fields_w :
    sampleFailureRec.error.isSome = true ∧
    sampleFailureRec.total_deleted.isSome = true ∧
    sampleFailureRec.duration_seconds.isSome = true ∧
    sampleFailureRec.batches_processed = none ∧
    sampleFailureRec.initial_count = none ∧
    sampleFailureRec.final_count = none ∧
    sampleFailureRec.average_batch_time = none :=
  claim_failure_record_fields gwFail3 none 10 10 (List.range' 1 25, 0)
    (sampleFailureRec, (List.range' 21 5, 2), []) (by rfl) rfl

/-- C3 counterexample: the successful N = 0 run returns a dict that
omits the final_count and average_batch_time keys, so not every
successful run's dict contains all the Result Record fields. -/
theorem claim_success_record_cex :
    (delete_all_records idealGw none 400 1 ([] : List Nat)).map
        (fun p => (p.1.success, p.1.initial_count, p.1.final_count,
                   p.1.average_batch_time)) =
      some (true, some 0, none, none) := by
  rfl

/-- C3 (amended): a successful run always reports success, initial
count, total deleted, batches processed and duration; when the initial
count is nonzero the dict additionally contains final_count and
average_batch_time = duration / batchesProcessed (0 if no batch ran),
while the N = 0 dict omits final_count and average_batch_time and has
duration 0. -/
theorem claim_success_record_fields {σ : Type} (gw : Gateway σ)
    (cb : Option Callback) (B fuel : Nat) (s0 : σ)
    (p : RunResult × σ × List Obs)
    (h : delete_all_records gw cb B fuel s0 = some p)
    (hsucc : p.1.success = true) :
    p.1.error = none ∧ p.1.initial_count.isSome = true ∧
    p.1.total_deleted.isSome = true ∧ p.1.batches_processed.isSome = true ∧
    p.1.duration_seconds.isSome = true ∧
    (p.1.initial_count ≠ some 0 →
      ∃ dur b, p.1.duration_seconds = some dur ∧
        p.1.batches_processed = some b ∧ p.1.final_count.isSome = true ∧
        p.1.average_batch_time = some (if 0 < b then dur / (b : ℚ) else 0)) ∧
    (p.1.initial_count = some 0 →
      p.1.final_count = none ∧ p.1.average_batch_time = none ∧
      p.1.duration_seconds = some 0) := by
  cases hc : gw.count s0 with
  | error e =>
    rw [run_count_err gw cb B fuel s0 e hc] at h
    injection h with h'
    subst h'
    exact Bool.noConfusion hsucc
  | ok q =>
    obtain ⟨ic, s1⟩ := q
    by_cases hic : ic = 0
    · subst hic
      rw [run_count_zero gw cb B fuel s0 s1 hc] at h
      injection h with h'
      subst h'
      refine ⟨rfl, rfl, rfl, rfl, rfl, ?_, fun _ => ⟨rfl, rfl, rfl⟩⟩
      intro hx
      exact absurd rfl hx
    · cases hl : loopAux gw cb B ic fuel 0 0 s1 with
      | fuelOut =>
        rw [run_loop_fuelOut gw cb B fuel s0 ic s1 hic hc hl] at h
        exact Option.noConfusion h
      | failed e t b tr s2 =>
        rw [run_loop_failed gw cb B fuel s0 ic s1 hic hc e t b tr s2 hl] at h
        injection h with h'
        subst h'
        exact Bool.noConfusion hsucc
      | done t b tr s2 =>
        cases h2 : gw.count s2 with
        | error e =>
          rw [run_final_count_err gw cb B fuel s0 ic s1 hic hc t b tr s2 hl e h2] at h
          injection h with h'
          subst h'
          exact Bool.noConfusion hsucc
        | ok q2 =>
          obtain ⟨fc, s3⟩ := q2
          rw [run_done_ok gw cb B fuel s0 ic s1 hic hc t b tr s2 hl fc s3 h2] at h
          injection h with h'
          subst h'
          refine ⟨rfl, rfl, rfl, rfl, rfl,
            fun _ => ⟨gw.now s2 - gw.now s0, b, rfl, rfl, rfl, rfl⟩, ?_⟩
          intro hx
          injection hx with hx'
          exact absurd hx' hic

/-- Witness for the amended C3 at the ideal N = 3, B = 2 run. -/
theorem claim_success_record_fields_w :
    sampleSuccessRec.error = none ∧
    sampleSuccessRec.initial_count.isSome = true ∧
    sampleSuccessRec.total_deleted.isSome = true ∧
    sampleSuccessRec.batches_processed.isSome = true ∧
    sampleSuccessRec.duration_seconds.isSome = true ∧
    (sampleSuccessRec.initial_count ≠ some 0 →
      ∃ dur b, sampleSuccessRec.duration_seconds = some dur ∧
        sampleSuccessRec.batches_processed = some b ∧
        sampleSuccessRec.final_count.isSome = true ∧
        sampleSuccessRec.average_batch_time =
          some (if 0 < b then dur / (b : ℚ) else 0)) ∧
    (sampleSuccessRec.initial_count = some 0 →
      sampleSuccessRec.final_count = none ∧
      sampleSuccessRec.average_batch_time = none ∧
      sampleSuccessRec.duration_seconds = some 0) :=
  claim_success_record_fields idealGw none 2 4 [1, 2, 3]
    (sampleSuccessRec, [], []) (by rfl) rfl

/-- C9: if the progress callback itself raises on batch k (with batch k
reachable: 1 ≤ k ≤ ceil(N/B)), the run catches it and returns a failure
dict carrying the callback's error description, whose total_deleted
includes the already-committed deletions of batch k (min (k*B) N rows),
even though every gateway call succeeded. -/
theorem claim_observer_raise_caught (s : List Nat) (B k fuel : Nat) (e : String)
    (hs : s.Sorted (· < ·)) (hB : 1 ≤ B) (hk : 1 ≤ k)
    (hkc : k ≤ (s.length + B - 1) / B) (hfuel : s.length < fuel) :
    ∃ r s2 tr, delete_all_records idealGw (some (failAt k e)) B fuel s =
        some (r, s2, tr) ∧
      r.success = false ∧ r.error = some e ∧
      r.total_deleted = some (min (k * B) s.length) := by
  have hlen : s.length ≠ 0 := by
    intro h0
    rw [h0, Nat.div_eq_of_lt (show 0 + B - 1 < B by omega)] at hkc
    omega
  obtain ⟨tr, hloop⟩ := loop_ideal_failAt B s.length k e hB fuel s 0 0 hs hfuel
    (by omega) (by omega)
  refine ⟨_, _, tr,
    run_loop_failed idealGw (some (failAt k e)) B fuel s s.length s hlen rfl
      e _ k tr _ hloop, rfl, rfl, ?_⟩
  show some (0 + min ((k - 0) * B) s.length) = some (min (k * B) s.length)
  rw [Nat.zero_add, Nat.sub_zero]

/-- Witness for C9: five rows, B = 2, callback raises on batch 2, so
min (2*2) 5 = 4 rows were deleted before the failure return. -/
theorem claim_observer_raise_caught_w :
    ∃ r s2 tr, delete_all_records idealGw (some (failAt 2 "boom")) 2 6
        [1, 2, 3, 4, 5] = some (r, s2, tr) ∧
      r.success = false ∧ r.error = some "boom" ∧
      r.total_deleted = some 4 :=
  claim_observer_raise_caught [1, 2, 3, 4, 5] 2 2 6 "boom" (by decide)
    (by decide) (by decide) (by decide) (by decide)

/-- Witness for C6 at an ideal two-batch run with an observer that
never raises. -/
theorem claim_observer_protocol_w :
    (sampleSuccessRec.success = true →
      sampleSuccessRec.batches_processed =
        some ([(⟨1, 2, 2, 3⟩ : Obs), ⟨2, 1, 3, 3⟩].length)) ∧
    ([(⟨1, 2, 2, 3⟩ : Obs), ⟨2, 1, 3, 3⟩].map Obs.batch_number =
      List.range' 1 [(⟨1, 2, 2, 3⟩ : Obs), ⟨2, 1, 3, 3⟩].length) ∧
    List.Chain' obsStep [(⟨1, 2, 2, 3⟩ : Obs), ⟨2, 1, 3, 3⟩] :=
  claim_observer_protocol idealGw okCb 2 5 [1, 2, 3] sampleSuccessRec []
    [⟨1, 2, 2, 3⟩, ⟨2, 1, 3, 3⟩] (by rfl)

/-- C7: the preview (statistics plus dry run) never mutates storage:
over the ideal gateway the table state is unchanged, so the row count
reported by the gateway after the dry run equals the one before. -/
theorem claim_preview_no_mutation (B : Nat) (s : List Nat) (hB : 1 ≤ B) :
    ∃ st, dry_run idealGw B s = .ok (st, s) ∧
      idealGw.count s = .ok (s.length, s) := by
  exact ⟨_, rfl, rfl⟩

/-- Witness for C7 at the default batch size on a three-row table. -/
theorem claim_preview_no_mutation_w :
    ∃ st, dry_run idealGw 400 [1, 2, 3] = .ok (st, [1, 2, 3]) ∧
      idealGw.count [1, 2, 3] = .ok (3, [1, 2, 3]) :=
  claim_preview_no_mutation 400 [1, 2, 3] (by decide)

/-- C10: in the dry run a failure of the sample fetch after a
successful count is swallowed (the snapshot is returned with an empty
sample list), whereas a failure of the count itself propagates as an
error. -/
theorem claim_dry_run_sample_error_swallowed {σ : Type} (gw : Gateway σ)
    (B : Nat) (s : σ) :
    (∀ st s1 e, get_deletion_statistics gw B s = .ok (st, s1) →
      gw.fetch (min 10 st.total_records) s1 = .error e →
      dry_run gw B s = .ok ({ st with sample_records := some [] }, s1)) ∧
    (∀ e, gw.count s = .error e → dry_run gw B s = .error e) := by
  constructor
  · intro st s1 e hst hf
    simp [dry_run, hst, hf]
  · intro e he
    simp [dry_run, get_deletion_statistics, he]

/-- Witness for C10: a gateway whose fetch always raises yields the
snapshot with an empty sample, and one whose count raises propagates
the error. -/
theorem claim_dry_run_sample_error_swallowed_w :
    dry_run gwFetchFails 400 [1, 2, 3] =
      .ok ({ sampleStats with sample_records := some [] }, [1, 2, 3]) ∧
    dry_run gwCountFails 400 [1, 2, 3] = .error "db down" :=
  ⟨(claim_dry_run_sample_error_swallowed gwFetchFails 400 [1, 2, 3]).1
      sampleStats [1, 2, 3] "net down" (by rfl) (by rfl),
   (claim_dry_run_sample_error_swallowed gwCountFails 400 [1, 2, 3]).2
      "db down" (by rfl)⟩
